import Mathlib

/-!
Verification of the document-management backend (`main.py`, `schemas.py`):
upload pipeline (tag parsing, stored-name derivation, chunked blob write,
metadata insert), search filtering and projection, and download/view
retrieval. Python strings are modelled as `String` / `List Char`, file
bytes as `List Nat`, the storage directory as an association list from
path to contents, and the document collection as a list of records.
-/

/-- Splits a character list on a separator, exactly like Python's
`str.split(sep)` for a one-character separator: `split ',' "a,,b"` gives
`["a", "", "b"]` and the empty string gives `[""]`. -/
def splitOnChar (sep : Char) : List Char → List (List Char)
  | [] => [[]]
  | c :: cs =>
    if c = sep then [] :: splitOnChar sep cs
    else
      match splitOnChar sep cs with
      | [] => [[c]]
      | h :: t => (c :: h) :: t

/-- Last element of a list of character lists, `[]` when empty: models
Python's `lst[-1]` on the nonempty result of `str.split`. -/
def lastD : List (List Char) → List Char
  | [] => []
  | [x] => x
  | _ :: y :: ys => lastD (y :: ys)

/-- Strips whitespace from both ends, modelling Python's `str.strip()`. -/
def trimChars (l : List Char) : List Char :=
  ((l.dropWhile Char.isWhitespace).reverse.dropWhile Char.isWhitespace).reverse

/-- Tag parsing from `main.py` line 65:
`[t.strip() for t in tags.split(',')] if tags else None`.
`None` and the empty string are falsy in Python, so both give `none`. -/
def parseTags (tags : Option String) : Option (List String) :=
  match tags with
  | none => none
  | some s =>
      if s = "" then none
      else some ((splitOnChar ',' s.data).map (fun cs => String.mk (trimChars cs)))

/-- Stored-name derivation from `main.py` line 40, on character lists:
`f"{ObjectId()}.{file.filename.split('.')[-1]}" if "." in file.filename
else str(ObjectId())`. The fresh `ObjectId` is the `oid` parameter. -/
def storedNameChars (oid fn : List Char) : List Char :=
  if '.' ∈ fn then oid ++ '.' :: lastD (splitOnChar '.' fn) else oid

/-- Stored-name derivation from `main.py` line 40 on `String`s. -/
def storedName (oid fn : String) : String :=
  String.mk (storedNameChars oid.data fn.data)

/-- Occurrence of `p` at the front of `t` (character-list version of
`String.startsWith`), used to state substring facts. -/
def listStartsWith : List Char → List Char → Bool
  | [], _ => true
  | _ :: _, [] => false
  | a :: l, b :: m => (a == b) && listStartsWith l m

/-- Occurrence of `p` anywhere inside `t` (contiguous substring test). -/
def listSub (p : List Char) : List Char → Bool
  | [] => listStartsWith p []
  | x :: t => listStartsWith p (x :: t) || listSub p t

-- Basic facts about `splitOnChar` and `lastD`.

theorem splitOnChar_ne_nil (sep : Char) (l : List Char) :
    splitOnChar sep l ≠ [] := by
  induction l with
  | nil => simp [splitOnChar]
  | cons c cs ih =>
    simp only [splitOnChar]
    split
    · simp
    · split
      · simp
      · simp

theorem lastD_cons_of_ne_nil (a : List Char) (r : List (List Char)) (h : r ≠ []) :
    lastD (a :: r) = lastD r := by
  cases r with
  | nil => exact absurd rfl h
  | cons y ys => rfl

/-- When the separator does not occur, the split is the whole list. -/
theorem splitOnChar_of_not_mem (sep : Char) (l : List Char) (h : sep ∉ l) :
    splitOnChar sep l = [l] := by
  induction l with
  | nil => rfl
  | cons c cs ih =>
    have hc : c ≠ sep := fun e => h (e ▸ List.mem_cons_self c cs)
    have hcs : sep ∉ cs := fun m => h (List.mem_cons_of_mem c m)
    simp only [splitOnChar, if_neg hc, ih hcs]

/-- When the separator occurs, the split has at least two pieces. -/
theorem splitOnChar_length_of_mem (sep : Char) (l : List Char) (h : sep ∈ l) :
    2 ≤ (splitOnChar sep l).length := by
  induction l with
  | nil => cases h
  | cons c cs ih =>
    by_cases hc : c = sep
    · have h1 : 1 ≤ (splitOnChar sep cs).length :=
        Nat.one_le_iff_ne_zero.mpr (by
          intro h0
          exact splitOnChar_ne_nil sep cs (List.length_eq_zero.mp h0))
      simp only [splitOnChar, if_pos hc, List.length_cons]
      omega
    · have hcs : sep ∈ cs := by
        rcases List.mem_cons.mp h with h' | h'
        · exact absurd h'.symm hc
        · exact h'
      have h2 := ih hcs
      simp only [splitOnChar, if_neg hc]
      rcases he : splitOnChar sep cs with _ | ⟨hh, tt⟩
      · exact absurd he (splitOnChar_ne_nil sep cs)
      · rw [he] at h2
        simpa using h2

/-- The last split piece never contains the separator. -/
theorem sep_not_mem_lastD (sep : Char) (l : List Char) :
    sep ∉ lastD (splitOnChar sep l) := by
  induction l with
  | nil => simp [splitOnChar, lastD]
  | cons c cs ih =>
    by_cases hc : c = sep
    · rw [show splitOnChar sep (c :: cs) = [] :: splitOnChar sep cs by
        simp [splitOnChar, hc]]
      rw [lastD_cons_of_ne_nil _ _ (splitOnChar_ne_nil sep cs)]
      exact ih
    · simp only [splitOnChar, if_neg hc]
      rcases he : splitOnChar sep cs with _ | ⟨hh, tt⟩
      · exact absurd he (splitOnChar_ne_nil sep cs)
      · rw [he] at ih
        cases tt with
        | nil =>
          simp only [lastD]
          intro hm
          rcases List.mem_cons.mp hm with h' | h'
          · exact hc h'.symm
          · exact ih (by simpa [lastD] using h')
        | cons y ys =>
          rw [lastD_cons_of_ne_nil _ _ (by simp)]
          rw [lastD_cons_of_ne_nil _ _ (by simp)] at ih
          exact ih

/-- When the separator occurs, the list decomposes as everything before
the final separator, the separator, then the last split piece. -/
theorem exists_decomp_lastD (sep : Char) (l : List Char) (h : sep ∈ l) :
    ∃ pre, l = pre ++ sep :: lastD (splitOnChar sep l) := by
  induction l with
  | nil => cases h
  | cons c cs ih =>
    by_cases hc : c = sep
    · by_cases hcs : sep ∈ cs
      · rcases ih hcs with ⟨pre', hp⟩
        refine ⟨c :: pre', ?_⟩
        have hsplit : splitOnChar sep (c :: cs) = [] :: splitOnChar sep cs := by
          simp [splitOnChar, hc]
        rw [hsplit, lastD_cons_of_ne_nil _ _ (splitOnChar_ne_nil sep cs)]
        simp only [List.cons_append, List.cons.injEq]
        exact ⟨trivial, hp⟩
      · refine ⟨[], ?_⟩
        have hsplit : splitOnChar sep (c :: cs) = [] :: splitOnChar sep cs := by
          simp [splitOnChar, hc]
        rw [hsplit, splitOnChar_of_not_mem sep cs hcs]
        simp [lastD, hc]
    · have hcs : sep ∈ cs := by
        rcases List.mem_cons.mp h with h' | h'
        · exact absurd h'.symm hc
        · exact h'
      rcases ih hcs with ⟨pre', hp⟩
      have h2 := splitOnChar_length_of_mem sep cs hcs
      rcases he : splitOnChar sep cs with _ | ⟨hh, tt⟩
      · exact absurd he (splitOnChar_ne_nil sep cs)
      · have htt : tt ≠ [] := by
          rw [he] at h2
          cases tt with
          | nil => simp at h2
          | cons _ _ => simp
        refine ⟨c :: pre', ?_⟩
        have hsplit : splitOnChar sep (c :: cs) = (c :: hh) :: tt := by
          simp only [splitOnChar, if_neg hc, he]
        rw [hsplit, lastD_cons_of_ne_nil _ _ htt]
        rw [he, lastD_cons_of_ne_nil _ _ htt] at hp
        simp only [List.cons_append, List.cons.injEq]
        exact ⟨trivial, hp⟩

-- ----------------------------------------------------------------------
-- Regex matching for the search filter
-- ----------------------------------------------------------------------

/-- Case-insensitive match of pattern `p` against a prefix of `t`, where
`'.'` in the pattern matches any single character. Together with
`regexSearchI` this models MongoDB's `$regex` with `$options: "i"`
(`main.py` lines 83-87) for patterns whose only regex metacharacter is
`'.'`; `isLiteralPat` below singles out the fully literal patterns. -/
def reMatchAt : List Char → List Char → Bool
  | [], _ => true
  | _ :: _, [] => false
  | c :: p, x :: t => (c == '.' || c.toLower == x.toLower) && reMatchAt p t

/-- Unanchored case-insensitive regex search: the pattern may match at
any position of the text, as MongoDB's `$regex` does. -/
def regexSearchI (p : List Char) : List Char → Bool
  | [] => reMatchAt p []
  | x :: t => reMatchAt p (x :: t) || regexSearchI p t

/-- The PCRE regex metacharacters. -/
def pcreMeta : List Char :=
  ['\\', '^', '$', '.', '|', '?', '*', '+', '(', ')', '[', ']',
   Char.ofNat 123, Char.ofNat 125]

/-- A pattern is literal when it contains no regex metacharacter; on such
patterns `$regex` degenerates to a substring search. -/
def isLiteralPat (p : List Char) : Bool :=
  p.all (fun c => !(pcreMeta.contains c))

/-- Case-insensitive substring test, the reading of the spec's words
"case-insensitive substring match". -/
def substrCI (q t : List Char) : Bool :=
  listSub (q.map Char.toLower) (t.map Char.toLower)

theorem reMatchAt_of_no_dot (p : List Char) (h : '.' ∉ p) :
    ∀ t, reMatchAt p t = listStartsWith (p.map Char.toLower) (t.map Char.toLower) := by
  induction p with
  | nil => intro t; cases t <;> rfl
  | cons c p ih =>
    have hc : c ≠ '.' := fun e => h (e ▸ List.mem_cons_self c p)
    have hp : '.' ∉ p := fun m => h (List.mem_cons_of_mem c m)
    intro t
    cases t with
    | nil => rfl
    | cons x xs =>
      have hcf : (c == '.') = false := by
        simp [hc]
      simp only [reMatchAt, List.map_cons, listStartsWith, hcf, Bool.false_or,
        ih hp xs]

theorem regexSearchI_of_no_dot (p : List Char) (h : '.' ∉ p) :
    ∀ t, regexSearchI p t = listSub (p.map Char.toLower) (t.map Char.toLower) := by
  intro t
  induction t with
  | nil =>
    simp only [regexSearchI, listSub, List.map_nil, reMatchAt_of_no_dot p h]
  | cons x xs ih =>
    simp only [regexSearchI, listSub, List.map_cons, ih,
      reMatchAt_of_no_dot p h (x :: xs), List.map_cons]

theorem no_dot_of_isLiteralPat (p : List Char) (h : isLiteralPat p = true) :
    '.' ∉ p := by
  intro hm
  have := List.all_eq_true.mp h '.' hm
  simp [pcreMeta, List.contains] at this

/-- On literal patterns, the Mongo regex search coincides with the
case-insensitive substring test. -/
theorem regexSearchI_eq_substrCI (p t : List Char) (h : isLiteralPat p = true) :
    regexSearchI p t = substrCI p t :=
  regexSearchI_of_no_dot p (no_dot_of_isLiteralPat p h) t

-- ----------------------------------------------------------------------
-- Data model
-- ----------------------------------------------------------------------

/-- A persisted document record, the `Document` model of `schemas.py`
(lines 42-51) together with the Mongo `_id` assigned at insert, held
here as its 24-hex-character string form `oid`. -/
structure StoredDoc where
  oid : String
  brand : String
  title : String
  description : Option String
  content_type : Option String
  size : Nat
  filename : String
  original_name : String
  path : String
  tags : Option (List String)
deriving DecidableEq, Repr

/-- A record as serialized by the search endpoint after the projection of
`main.py` lines 90-92: `_id` renamed to the string field `id`, `path`
removed. There is no storage-location field in this type. -/
structure PublicDoc where
  id : String
  brand : String
  title : String
  description : Option String
  content_type : Option String
  size : Nat
  filename : String
  original_name : String
  tags : Option (List String)
deriving DecidableEq, Repr

/-- The projection applied per item in `main.py` lines 90-92. -/
def project (d : StoredDoc) : PublicDoc :=
  { id := d.oid, brand := d.brand, title := d.title,
    description := d.description, content_type := d.content_type,
    size := d.size, filename := d.filename,
    original_name := d.original_name, tags := d.tags }

-- ----------------------------------------------------------------------
-- Search filter
-- ----------------------------------------------------------------------

/-- The Mongo filter document built by `list_documents` (`main.py` lines
78-87): an optional `brand` equality key and an optional `$or` of three
case-insensitive `$regex` conditions sharing the query string. -/
structure FilterQuery where
  brandEq : Option String
  orRegex : Option String
deriving DecidableEq, Repr

/-- Filter construction from `main.py` lines 78-87. Python's
`if brand:` / `if q:` treat `None` and the empty string alike as falsy,
so neither adds its key for an empty-string value. -/
def buildFilter (q brand : Option String) : FilterQuery :=
  { brandEq :=
      match brand with
      | some b => if b = "" then none else some b
      | none => none,
    orRegex :=
      match q with
      | some s => if s = "" then none else some s
      | none => none }

/-- Modelled from the spec: MongoDB's evaluation of the filter document
on one record (`database.py`, which holds `get_documents`, is not part
of the sources; §4.4 specifies that `find` applies the caller-supplied
filter). Equality on `brand` is exact; a `$regex` condition on an absent
(`null`) `description` or `tags` field does not match; `$elemMatch`
requires some element of `tags` to match. -/
def evalFilter (f : FilterQuery) (d : StoredDoc) : Bool :=
  (match f.brandEq with
   | some b => d.brand == b
   | none => true) &&
  (match f.orRegex with
   | some q =>
       regexSearchI q.data d.title.data ||
       (match d.description with
        | some s => regexSearchI q.data s.data
        | none => false) ||
       (match d.tags with
        | some ts => ts.any (fun t => regexSearchI q.data t.data)
        | none => false)
   | none => true)

/-- Modelled from the spec: `get_documents(collection, filter, limit)`
of the absent `database.py`, per §4.4 — records matching the filter, in
stable insertion order, truncated to `limit`. -/
def getDocuments (db : List StoredDoc) (f : FilterQuery) (limit : Nat) :
    List StoredDoc :=
  (db.filter (fun d => evalFilter f d)).take limit

/-- The search endpoint `list_documents` (`main.py` lines 77-93): build
the filter, query, then project each item. -/
def listDocuments (db : List StoredDoc) (q brand : Option String)
    (limit : Nat) : List PublicDoc :=
  (getDocuments db (buildFilter q brand) limit).map project

/-- The spec-side match predicate for the free-text term, following §4.6:
a case-insensitive substring match against at least one of `title`,
`description`, or any element of `tags`. -/
def specQMatch (q : String) (d : StoredDoc) : Bool :=
  substrCI q.data d.title.data ||
  (match d.description with
   | some s => substrCI q.data s.data
   | none => false) ||
  (match d.tags with
   | some ts => ts.any (fun t => substrCI q.data t.data)
   | none => false)

-- ----------------------------------------------------------------------
-- Upload pipeline
-- ----------------------------------------------------------------------

/-- The filesystem: stored files as an association list from path to byte
contents (bytes as `Nat`). A write prepends, and lookup takes the first
(most recent) entry for a path. -/
abbrev FS : Type := List (String × List Nat)

/-- File lookup; `none` models `os.path.exists` returning `False`. -/
def lookupFS (fs : FS) (p : String) : Option (List Nat) :=
  match fs with
  | [] => none
  | (q, c) :: rest => if q == p then some c else lookupFS rest p

/-- The fixed chunk size of the upload read loop, `main.py` line 47. -/
def CHUNK : Nat := 1024 * 1024

/-- Chunked reading of the stream (`main.py` lines 46-50): repeatedly
take up to `CHUNK` bytes until the stream is exhausted. Structural
recursion on a fuel bounded below by the byte count; each iteration
consumes at least one byte, so the fuel guard is never reached when the
fuel starts at the stream length. -/
def chunksOfAux : Nat → List Nat → List (List Nat)
  | _, [] => []
  | 0, bs => [bs]
  | fuel + 1, bs => bs.take CHUNK :: chunksOfAux fuel (bs.drop CHUNK)

/-- The sequence of chunks the upload loop writes for a stream `bs`. -/
def chunksOf (bs : List Nat) : List (List Nat) :=
  chunksOfAux bs.length bs

theorem chunksOfAux_flatten (fuel : Nat) :
    ∀ bs : List Nat, (chunksOfAux fuel bs).flatten = bs := by
  induction fuel with
  | zero => intro bs; cases bs <;> simp [chunksOfAux]
  | succ n ih =>
    intro bs
    cases bs with
    | nil => simp [chunksOfAux]
    | cons x xs =>
      simp only [chunksOfAux, List.flatten_cons, ih]
      exact List.take_append_drop CHUNK (x :: xs)

/-- Writing all chunks reproduces the stream byte for byte. -/
theorem chunksOf_flatten (bs : List Nat) : (chunksOf bs).flatten = bs :=
  chunksOfAux_flatten bs.length bs

/-- The multipart form of the upload endpoint. `brand` and `title` are
required (`Form(...)`); `description`, `tags` optional; the file part
carries a client filename, a declared content type and the byte stream. -/
structure UploadForm where
  brand : Option String
  title : Option String
  description : Option String
  tags : Option String
  fileName : String
  fileContentType : Option String
  fileContent : List Nat
deriving DecidableEq, Repr

/-- Outcome of an upload request. `validationError` is the framework's
422 for missing required form fields, listing the missing ones;
`serverError` is the 500 produced by an uncaught exception from the
blob write or the insert. -/
inductive UploadOutcome where
  | ok (id : String)
  | validationError (fields : List String)
  | serverError
deriving DecidableEq, Repr

/-- The upload endpoint `upload_document` (`main.py` lines 31-69).
Failure injection: `writeFail = some k` makes the chunked write raise
after `k` chunks (leaving the partly written file on disk, the `finally`
having closed the handle); `insertOk = false` makes `create_document`
raise. `oidF` is the `ObjectId()` generated for the stored name,
`oidD` the `_id` assigned by the insert (`database.py` is not in the
sources; modelled from the spec §4.4: `insert` persists the record and
returns its identifier). `size` is `os.path.getsize` on the path just
written (`main.py` line 54). `STORAGE_DIR` takes its default value
`"storage"`. -/
def uploadDocument (fs : FS) (db : List StoredDoc) (form : UploadForm)
    (oidF oidD : String) (writeFail : Option Nat) (insertOk : Bool) :
    UploadOutcome × FS × List StoredDoc :=
  match form.brand, form.title with
  | none, none => (.validationError ["brand", "title"], fs, db)
  | none, some _ => (.validationError ["brand"], fs, db)
  | some _, none => (.validationError ["title"], fs, db)
  | some brand, some title =>
    let sn := storedName oidF form.fileName
    let path := "storage/" ++ sn
    let cks := chunksOf form.fileContent
    match writeFail with
    | some k => (.serverError, (path, (cks.take k).flatten) :: fs, db)
    | none =>
      let fs' : FS := (path, cks.flatten) :: fs
      let size := ((lookupFS fs' path).getD []).length
      let doc : StoredDoc :=
        { oid := oidD, brand := brand, title := title,
          description := form.description,
          content_type := form.fileContentType,
          size := size, filename := sn,
          original_name := form.fileName, path := path,
          tags := parseTags form.tags }
      if insertOk then (.ok oidD, fs', db ++ [doc])
      else (.serverError, fs', db)

-- ----------------------------------------------------------------------
-- Download and view
-- ----------------------------------------------------------------------

/-- Character-by-character lowering of a string (the canonical lowercase
hex form `str(ObjectId(s))` of a valid identifier string `s`). -/
def lowerStr (s : String) : String :=
  String.mk (s.data.map Char.toLower)

/-- A hexadecimal digit, as accepted by `bson.ObjectId`. -/
def isHexChar (c : Char) : Bool :=
  c.isDigit || ('a' ≤ c && c ≤ 'f') || ('A' ≤ c && c ≤ 'F')

/-- Validity of a path identifier: `ObjectId(doc_id)` succeeds exactly on
24-character hexadecimal strings and raises `InvalidId` otherwise
(`main.py` lines 99-102). -/
def isValidObjectId (s : String) : Bool :=
  s.length == 24 && s.data.all isHexChar

/-- Response of the download/view endpoints. `fileOut` is a
`FileResponse` carrying the blob bytes, the filename hint, the media
type and the `Content-Disposition` type. -/
inductive RetrieveResponse where
  | badRequest (detail : String)
  | notFound (detail : String)
  | fileOut (bytes : List Nat) (filename : String) (mediaType : String)
      (disposition : String)
deriving DecidableEq, Repr

/-- The download endpoint `download_document` (`main.py` lines 96-114).
`find_one({"_id": ObjectId(doc_id)})` compares against the canonical
lowercase-hex form of the identifier. Python's `or` makes an empty
`path`, `original_name` or `content_type` behave as absent. Starlette's
`FileResponse` given a `filename` and no `content_disposition_type`
argument emits `Content-Disposition: attachment`. -/
def downloadDocument (db : List StoredDoc) (fs : FS) (docId : String) :
    RetrieveResponse :=
  if isValidObjectId docId then
    match db.find? (fun d => d.oid == lowerStr docId) with
    | none => .notFound "Document not found"
    | some doc =>
      if doc.path == "" then .notFound "File not found on server"
      else
        match lookupFS fs doc.path with
        | none => .notFound "File not found on server"
        | some bytes =>
          .fileOut bytes
            (if doc.original_name == "" then doc.filename
             else doc.original_name)
            (match doc.content_type with
             | some c => if c == "" then "application/octet-stream" else c
             | none => "application/octet-stream")
            "attachment"
  else .badRequest "Invalid document id"

/-- The view endpoint `view_document` (`main.py` lines 117-135): its body
is character-for-character the same as `download_document`, including
the `FileResponse` call, so it too emits the default `attachment`
disposition. -/
def viewDocument (db : List StoredDoc) (fs : FS) (docId : String) :
    RetrieveResponse :=
  if isValidObjectId docId then
    match db.find? (fun d => d.oid == lowerStr docId) with
    | none => .notFound "Document not found"
    | some doc =>
      if doc.path == "" then .notFound "File not found on server"
      else
        match lookupFS fs doc.path with
        | none => .notFound "File not found on server"
        | some bytes =>
          .fileOut bytes
            (if doc.original_name == "" then doc.filename
             else doc.original_name)
            (match doc.content_type with
             | some c => if c == "" then "application/octet-stream" else c
             | none => "application/octet-stream")
            "attachment"
  else .badRequest "Invalid document id"

-- ----------------------------------------------------------------------
-- Concrete fixtures
-- ----------------------------------------------------------------------

/-- An existing record whose blob is present in storage. -/
def exDoc1 : StoredDoc :=
  { oid := "65a1b2c3d4e5f6a7b8c9d0e1", brand := "Otis", title := "Manual A",
    description := none, content_type := some "application/pdf", size := 3,
    filename := "65a1b2c3d4e5f6a7b8c9d0e1.pdf",
    original_name := "manual.pdf",
    path := "storage/65a1b2c3d4e5f6a7b8c9d0e1.pdf", tags := none }

/-- A record whose blob is missing from storage. -/
def exDoc2 : StoredDoc :=
  { oid := "65a1b2c3d4e5f6a7b8c9d0e2", brand := "KONE", title := "Manual B",
    description := none, content_type := none, size := 2,
    filename := "65a1b2c3d4e5f6a7b8c9d0e2.pdf",
    original_name := "b.pdf",
    path := "storage/65a1b2c3d4e5f6a7b8c9d0e2.pdf", tags := none }

/-- Storage holding only `exDoc1`'s blob. -/
def exFS : FS := [("storage/65a1b2c3d4e5f6a7b8c9d0e1.pdf", [1, 2, 3])]

/-- The document collection holding both records. -/
def exDB : List StoredDoc := [exDoc1, exDoc2]

/-- An upload form whose `brand` is present but the empty string. -/
def exFormEmptyBrand : UploadForm :=
  { brand := some "", title := some "T", description := none, tags := none,
    fileName := "f.pdf", fileContentType := some "application/pdf",
    fileContent := [9] }

/-- A well-formed upload form. -/
def exForm : UploadForm :=
  { brand := some "Otis", title := some "Manual A", description := none,
    tags := some "a, b ,c", fileName := "manual.pdf",
    fileContentType := some "application/pdf", fileContent := [1, 2, 3] }

-- ----------------------------------------------------------------------
-- Claim C2 — tag parsing
-- ----------------------------------------------------------------------

/-- C2 counterexample: the tags input `","` is non-empty, so the parser
runs, and it produces `["", ""]` — a non-empty sequence containing only
empty strings, contradicting the claim that the parser never produces a
sequence containing only empty strings. -/
theorem parseTags_comma_only_empties :
    parseTags (some ",") = some ["", ""] ∧
    (["", ""] : List String) ≠ [] ∧
    (["", ""] : List String).all (fun t => t == "") = true := by
  refine ⟨by decide, by decide, by decide⟩

/-- C2 (amended): the tags form field is split on `','` with each element
trimmed (input `"a, b ,c"` yields `["a", "b", "c"]`); an absent or
empty-string input yields an absent tags field, and those are the only
inputs that do; but a non-empty input made of commas and whitespace
yields a sequence of empty strings. -/
theorem parseTags_amended_spec :
    parseTags (some "a, b ,c") = some ["a", "b", "c"] ∧
    parseTags none = none ∧
    parseTags (some "") = none ∧
    ∀ s : String, (parseTags (some s)).isNone = (s == "") := by
  refine ⟨by decide, rfl, by decide, ?_⟩
  intro s
  by_cases h : s = ""
  · simp [parseTags, h]
  · simp [parseTags, h]

/-- Witness for `parseTags_amended_spec` at a concrete input. -/
theorem parseTags_amended_spec_witness :
    (parseTags (some "x")).isNone = ("x" == "") :=
  parseTags_amended_spec.2.2.2 "x"

-- ----------------------------------------------------------------------
-- Claim C5 — stored-name derivation and name safety
-- ----------------------------------------------------------------------

theorem listSub_dotdot_two_dots (t : List Char)
    (h : listSub ['.', '.'] t = true) : 2 ≤ t.count '.' := by
  induction t with
  | nil => simp [listSub, listStartsWith] at h
  | cons x xs ih =>
    simp only [listSub, Bool.or_eq_true] at h
    rcases h with h | h
    · cases xs with
      | nil => simp [listStartsWith] at h
      | cons y ys =>
        simp only [listStartsWith, Bool.and_eq_true, beq_iff_eq] at h
        obtain ⟨hx, hy, -⟩ := h
        simp [List.count_cons, ← hx, ← hy]
    · have := ih h
      simp only [List.count_cons]
      omega

theorem count_storedNameChars (oid fn : List Char) (hoid : '.' ∉ oid)
    (hdot : '.' ∈ fn) : (storedNameChars oid fn).count '.' = 1 := by
  simp only [storedNameChars, if_pos hdot]
  rw [List.count_append, List.count_cons]
  rw [List.count_eq_zero.mpr hoid,
    List.count_eq_zero.mpr (sep_not_mem_lastD '.' fn)]
  simp

/-- C5: when the client filename contains a `'.'`, the stored name is the
generated identifier, a dot, and the substring after the final `'.'` of
the filename (an extension that itself contains no dot); with no `'.'`
the stored name is the identifier alone; and a filename containing the
traversal sequence `".."` is never equal to the stored name. The
hypothesis holds for every generated identifier, which is 24 lowercase
hex characters. -/
theorem storedName_safety (oid fn : String) (hoid : '.' ∉ oid.data) :
    ('.' ∈ fn.data →
      ∃ pre ext, fn.data = pre ++ '.' :: ext ∧ '.' ∉ ext ∧
        (storedName oid fn).data = oid.data ++ '.' :: ext) ∧
    ('.' ∉ fn.data → storedName oid fn = oid) ∧
    (listSub ['.', '.'] fn.data = true → storedName oid fn ≠ fn) := by
  refine ⟨?_, ?_, ?_⟩
  · intro hdot
    refine ⟨Classical.choose (exists_decomp_lastD '.' fn.data hdot),
      lastD (splitOnChar '.' fn.data),
      Classical.choose_spec (exists_decomp_lastD '.' fn.data hdot),
      sep_not_mem_lastD '.' fn.data, ?_⟩
    simp [storedName, storedNameChars, if_pos hdot]
  · intro hdot
    show String.mk (storedNameChars oid.data fn.data) = oid
    rw [storedNameChars, if_neg hdot]
  · intro hsub heq
    have hcnt2 : 2 ≤ fn.data.count '.' := listSub_dotdot_two_dots _ hsub
    have hdot : '.' ∈ fn.data := by
      by_contra hn
      rw [List.count_eq_zero.mpr hn] at hcnt2
      omega
    have hdata : (storedName oid fn).data = fn.data := congrArg String.data heq
    have hcnt1 : (storedNameChars oid.data fn.data).count '.' = 1 :=
      count_storedNameChars oid.data fn.data hoid hdot
    rw [show (storedName oid fn).data = storedNameChars oid.data fn.data from rfl]
      at hdata
    rw [hdata] at hcnt1
    omega

/-- Witness for `storedName_safety`: a path-traversal filename with a
generated 24-hex-character identifier. -/
theorem storedName_safety_witness :
    storedName "65a1b2c3d4e5f6a7b8c9d0e9" "../../etc/passwd" ≠
      "../../etc/passwd" :=
  (storedName_safety "65a1b2c3d4e5f6a7b8c9d0e9" "../../etc/passwd"
    (by decide)).2.2 (by decide)

-- ----------------------------------------------------------------------
-- Claim C1 — disposition of download vs view
-- ----------------------------------------------------------------------

/-- C1: download and view of the same existing record return identical
bytes and content-type — but both respond with the `attachment`
disposition. The view handler's body is identical to the download
handler's, and `FileResponse` with a `filename` and no
`content_disposition_type` defaults to `attachment`, so view does not
render inline and the two operations do not differ in disposition,
contrary to the claim and to the code's own comment
"Stream inline viewing (e.g., PDFs)". -/
theorem view_download_same_attachment_disposition :
    downloadDocument exDB exFS "65a1b2c3d4e5f6a7b8c9d0e1" =
      .fileOut [1, 2, 3] "manual.pdf" "application/pdf" "attachment" ∧
    viewDocument exDB exFS "65a1b2c3d4e5f6a7b8c9d0e1" =
      .fileOut [1, 2, 3] "manual.pdf" "application/pdf" "attachment" := by
  refine ⟨by decide, by decide⟩

-- ----------------------------------------------------------------------
-- Claim C9 — malformed vs not-found for download/view
-- ----------------------------------------------------------------------

/-- C9 counterexample: both 404 cases occur — a well-formed identifier
with no record, and a record whose blob is missing — but their responses
carry different detail messages ("Document not found" vs "File not found
on server"), so the two cases are distinguishable to the caller,
contrary to the claim's final conjunct. -/
theorem notfound_details_distinguishable :
    downloadDocument exDB exFS "000000000000000000000000" =
      .notFound "Document not found" ∧
    downloadDocument exDB exFS "65a1b2c3d4e5f6a7b8c9d0e2" =
      .notFound "File not found on server" ∧
    downloadDocument exDB exFS "000000000000000000000000" ≠
      downloadDocument exDB exFS "65a1b2c3d4e5f6a7b8c9d0e2" := by
  refine ⟨by decide, by decide, by decide⟩

/-- C9 (amended): a syntactically invalid identifier yields 400 on both
endpoints; a well-formed identifier with no matching record yields 404
with detail "Document not found"; a matching record whose blob is absent
from storage yields 404 with detail "File not found on server" — the two
404 cases carry the same status but different detail messages. -/
theorem retrieve_status_codes (db : List StoredDoc) (fs : FS) (docId : String) :
    (isValidObjectId docId = false →
      downloadDocument db fs docId = .badRequest "Invalid document id" ∧
      viewDocument db fs docId = .badRequest "Invalid document id") ∧
    (isValidObjectId docId = true →
      db.find? (fun d => d.oid == lowerStr docId) = none →
      downloadDocument db fs docId = .notFound "Document not found" ∧
      viewDocument db fs docId = .notFound "Document not found") ∧
    (∀ doc, isValidObjectId docId = true →
      db.find? (fun d => d.oid == lowerStr docId) = some doc →
      lookupFS fs doc.path = none →
      downloadDocument db fs docId = .notFound "File not found on server" ∧
      viewDocument db fs docId = .notFound "File not found on server") := by
  refine ⟨?_, ?_, ?_⟩
  · intro h
    constructor <;> simp [downloadDocument, viewDocument, h]
  · intro hv hf
    constructor <;> simp [downloadDocument, viewDocument, hv, hf]
  · intro doc hv hf hlk
    by_cases hp : doc.path = ""
    · constructor <;> simp [downloadDocument, viewDocument, hv, hf, hp]
    · have hpb : (doc.path == "") = false := beq_eq_false_iff_ne.mpr hp
      constructor <;> simp [downloadDocument, viewDocument, hv, hf, hpb, hlk]

/-- Witness for `retrieve_status_codes` covering the three branches at
concrete identifiers and states. -/
theorem retrieve_status_codes_witness :
    (downloadDocument exDB exFS "no" = .badRequest "Invalid document id" ∧
     viewDocument exDB exFS "no" = .badRequest "Invalid document id") ∧
    (downloadDocument exDB exFS "000000000000000000000000" =
       .notFound "Document not found" ∧
     viewDocument exDB exFS "000000000000000000000000" =
       .notFound "Document not found") ∧
    (downloadDocument exDB exFS "65a1b2c3d4e5f6a7b8c9d0e2" =
       .notFound "File not found on server" ∧
     viewDocument exDB exFS "65a1b2c3d4e5f6a7b8c9d0e2" =
       .notFound "File not found on server") :=
  ⟨(retrieve_status_codes exDB exFS "no").1 (by decide),
   (retrieve_status_codes exDB exFS "000000000000000000000000").2.1
     (by decide) (by decide),
   (retrieve_status_codes exDB exFS "65a1b2c3d4e5f6a7b8c9d0e2").2.2 exDoc2
     (by decide) (by decide) (by decide)⟩

-- ----------------------------------------------------------------------
-- Claim C4 — search filter semantics
-- ----------------------------------------------------------------------

/-- C4 counterexample: the free-text parameter is passed to Mongo as a
regex, not as a literal substring. With `q = "."` the record with title
"Manual A" is returned by the search (the regex `.` matches any
character), yet `"."` is not a case-insensitive substring of its title,
description, or any tag (`specQMatch` is the claim's substring
predicate), so "matches only if q is a substring" fails. -/
theorem search_regex_not_substring :
    listDocuments [exDoc1] (some ".") none 100 = [project exDoc1] ∧
    specQMatch "." exDoc1 = false := by
  refine ⟨by decide, by decide⟩

/-- C4 (amended): for a free-text term that contains no regex
metacharacter, the claim's semantics holds: a given non-empty `brand`
constrains to exact case-sensitive equality, a given non-empty literal
`q` constrains to a case-insensitive substring match against title,
description, or some tag (OR), both combine with AND, and with neither
given every record matches. For `q` containing regex metacharacters the
match is the regex semantics of `q`, not the substring semantics. -/
theorem search_filter_semantics_literal (d : StoredDoc) (q b : String)
    (hlit : isLiteralPat q.data = true) (hq : q ≠ "") (hb : b ≠ "") :
    evalFilter (buildFilter (some q) (some b)) d =
      ((d.brand == b) && specQMatch q d) ∧
    evalFilter (buildFilter none (some b)) d = (d.brand == b) ∧
    evalFilter (buildFilter (some q) none) d = specQMatch q d ∧
    evalFilter (buildFilter none none) d = true := by
  have key : ∀ t : List Char, regexSearchI q.data t = substrCI q.data t :=
    fun t => regexSearchI_eq_substrCI q.data t hlit
  obtain ⟨oid, brand, title, desc, ct, sz, fn, onm, pth, tgs⟩ := d
  cases desc <;> cases tgs <;>
    refine ⟨?_, ?_, ?_, ?_⟩ <;>
      simp [evalFilter, buildFilter, specQMatch, hq, hb, key]

/-- Witness for `search_filter_semantics_literal` at the spec's own
example: records with brands Otis/KONE, literal query "manual". -/
theorem search_filter_semantics_literal_witness :
    evalFilter (buildFilter (some "manual") (some "Otis")) exDoc1 =
      ((exDoc1.brand == "Otis") && specQMatch "manual" exDoc1) ∧
    evalFilter (buildFilter none (some "Otis")) exDoc1 =
      (exDoc1.brand == "Otis") ∧
    evalFilter (buildFilter (some "manual") none) exDoc1 =
      specQMatch "manual" exDoc1 ∧
    evalFilter (buildFilter none none) exDoc1 = true :=
  search_filter_semantics_literal exDoc1 "manual" "Otis"
    (by decide) (by decide) (by decide)

-- ----------------------------------------------------------------------
-- Claim C10 — empty-string query parameters
-- ----------------------------------------------------------------------

/-- C10: an empty-string `q` and an empty-string `brand` are each treated
exactly as if absent — `if q:` and `if brand:` are false for Python's
empty string, so no constraint is added — hence for every database
state the search results coincide with the parameter omitted. -/
theorem empty_query_params_ignored (db : List StoredDoc) (limit : Nat) :
    (∀ brand : Option String,
      listDocuments db (some "") brand limit =
        listDocuments db none brand limit) ∧
    (∀ q : Option String,
      listDocuments db q (some "") limit = listDocuments db q none limit) ∧
    listDocuments db (some "") (some "") limit =
      listDocuments db none none limit := by
  have hq : ∀ brand, buildFilter (some "") brand = buildFilter none brand := by
    intro brand
    simp [buildFilter]
  have hbr : ∀ q, buildFilter q (some "") = buildFilter q none := by
    intro q
    simp [buildFilter]
  refine ⟨fun brand => ?_, fun q => ?_, ?_⟩
  · simp only [listDocuments, hq]
  · simp only [listDocuments, hbr]
  · simp only [listDocuments, hq, hbr]

-- ----------------------------------------------------------------------
-- Claim C3 — required-field validation
-- ----------------------------------------------------------------------

/-- C3 counterexample: an upload whose `brand` field is present but the
empty string does not fail with a validation error — the framework's
`Form(...)` only requires presence and the `Document` model puts no
minimum length on `brand` — so the blob is written, the record is
inserted with `brand = ""`, and the upload succeeds. -/
theorem upload_empty_brand_succeeds :
    uploadDocument [] [] exFormEmptyBrand
        "65a1b2c3d4e5f6a7b8c9d0e9" "65a1b2c3d4e5f6a7b8c9d0ea" none true =
      (.ok "65a1b2c3d4e5f6a7b8c9d0ea",
       [("storage/65a1b2c3d4e5f6a7b8c9d0e9.pdf", [9])],
       [{ oid := "65a1b2c3d4e5f6a7b8c9d0ea", brand := "", title := "T",
          description := none, content_type := some "application/pdf",
          size := 1, filename := "65a1b2c3d4e5f6a7b8c9d0e9.pdf",
          original_name := "f.pdf",
          path := "storage/65a1b2c3d4e5f6a7b8c9d0e9.pdf",
          tags := none }]) := by
  decide

/-- C3 (amended): an upload with `brand` or `title` absent fails with a
validation error naming the missing field(s), before any storage write
(filesystem and collection unchanged); but an empty-string `brand` or
`title` is accepted, and such an upload proceeds and succeeds when the
write and insert succeed. -/
theorem upload_missing_field_validation (fs : FS) (db : List StoredDoc)
    (form : UploadForm) (oidF oidD : String) (wf : Option Nat) (ins : Bool) :
    (form.brand = none → form.title = none →
      uploadDocument fs db form oidF oidD wf ins =
        (.validationError ["brand", "title"], fs, db)) ∧
    (∀ t, form.brand = none → form.title = some t →
      uploadDocument fs db form oidF oidD wf ins =
        (.validationError ["brand"], fs, db)) ∧
    (∀ b, form.brand = some b → form.title = none →
      uploadDocument fs db form oidF oidD wf ins =
        (.validationError ["title"], fs, db)) ∧
    (∀ b t, form.brand = some b → form.title = some t →
      (uploadDocument fs db form oidF oidD none true).1 = .ok oidD) := by
  obtain ⟨fb, ftl, fd, ftg, ffn, fct, fc⟩ := form
  refine ⟨?_, ?_, ?_, ?_⟩
  · intro hb ht
    simp only at hb ht
    subst hb; subst ht
    rfl
  · intro t hb ht
    simp only at hb ht
    subst hb; subst ht
    rfl
  · intro b hb ht
    simp only at hb ht
    subst hb; subst ht
    rfl
  · intro b t hb ht
    simp only at hb ht
    subst hb; subst ht
    rfl

/-- Witness for `upload_missing_field_validation` covering a missing
field and the empty-string acceptance at concrete inputs. -/
theorem upload_missing_field_validation_witness :
    uploadDocument exFS exDB
        { exForm with brand := none, title := none }
        "65a1b2c3d4e5f6a7b8c9d0e9" "65a1b2c3d4e5f6a7b8c9d0ea" none true =
      (.validationError ["brand", "title"], exFS, exDB) ∧
    (uploadDocument [] [] exFormEmptyBrand
        "65a1b2c3d4e5f6a7b8c9d0e9" "65a1b2c3d4e5f6a7b8c9d0ea" none true).1 =
      .ok "65a1b2c3d4e5f6a7b8c9d0ea" :=
  ⟨(upload_missing_field_validation exFS exDB
      { exForm with brand := none, title := none }
      "65a1b2c3d4e5f6a7b8c9d0e9" "65a1b2c3d4e5f6a7b8c9d0ea" none true).1
      rfl rfl,
   (upload_missing_field_validation [] [] exFormEmptyBrand
      "65a1b2c3d4e5f6a7b8c9d0e9" "65a1b2c3d4e5f6a7b8c9d0ea" none true).2.2.2
      "" "T" rfl rfl⟩

-- ----------------------------------------------------------------------
-- Claims C6 and C7 — upload atomicity and size integrity
-- ----------------------------------------------------------------------

/-- C6: with the required fields present, (i) a blob write that fails
after any number of chunks yields a server error and leaves the
collection unchanged — no record ever exists for a blob whose write
failed; (ii) a failed insert yields no success and leaves the collection
unchanged; (iii) the collection changes only when the blob was fully
written first (the stored blob holds the complete stream) and the insert
succeeded, and only then is success reported. -/
theorem upload_atomicity (fs : FS) (db : List StoredDoc) (form : UploadForm)
    (oidF oidD : String) (wf : Option Nat) (ins : Bool) (b t : String)
    (hb : form.brand = some b) (ht : form.title = some t) :
    (∀ k, wf = some k →
      (uploadDocument fs db form oidF oidD wf ins).1 = .serverError ∧
      (uploadDocument fs db form oidF oidD wf ins).2.2 = db) ∧
    (ins = false →
      (∀ i, (uploadDocument fs db form oidF oidD wf ins).1 ≠ .ok i) ∧
      (uploadDocument fs db form oidF oidD wf ins).2.2 = db) ∧
    ((uploadDocument fs db form oidF oidD wf ins).2.2 ≠ db →
      wf = none ∧ ins = true ∧
      (uploadDocument fs db form oidF oidD wf ins).1 = .ok oidD ∧
      lookupFS (uploadDocument fs db form oidF oidD wf ins).2.1
          ("storage/" ++ storedName oidF form.fileName) =
        some form.fileContent) := by
  obtain ⟨fb, ftl, fd, ftg, ffn, fct, fc⟩ := form
  simp only at hb ht
  subst hb; subst ht
  cases wf with
  | some k =>
    refine ⟨fun k' hk => ⟨rfl, rfl⟩, fun hins => ⟨fun i h => ?_, rfl⟩,
      fun hne => absurd rfl hne⟩
    exact UploadOutcome.noConfusion h
  | none =>
    cases ins with
    | false =>
      refine ⟨fun k' hk => Option.noConfusion hk,
        fun hins => ⟨fun i h => UploadOutcome.noConfusion h, rfl⟩,
        fun hne => absurd rfl hne⟩
    | true =>
      refine ⟨fun k' hk => Option.noConfusion hk,
        fun hins => Bool.noConfusion hins,
        fun hne => ⟨rfl, rfl, rfl, ?_⟩⟩
      simp only [uploadDocument, lookupFS, beq_self_eq_true, if_pos,
        chunksOf_flatten]

/-- Witness for `upload_atomicity`: a write failing after zero chunks
leaves the collection unchanged; a fully successful upload extends it. -/
theorem upload_atomicity_witness :
    ((uploadDocument exFS exDB exForm
        "65a1b2c3d4e5f6a7b8c9d0e9" "65a1b2c3d4e5f6a7b8c9d0ea"
        (some 0) true).1 = .serverError ∧
     (uploadDocument exFS exDB exForm
        "65a1b2c3d4e5f6a7b8c9d0e9" "65a1b2c3d4e5f6a7b8c9d0ea"
        (some 0) true).2.2 = exDB) ∧
    ((uploadDocument exFS exDB exForm
        "65a1b2c3d4e5f6a7b8c9d0e9" "65a1b2c3d4e5f6a7b8c9d0ea"
        none true).2.2 ≠ exDB →
      (uploadDocument exFS exDB exForm
        "65a1b2c3d4e5f6a7b8c9d0e9" "65a1b2c3d4e5f6a7b8c9d0ea"
        none true).1 = .ok "65a1b2c3d4e5f6a7b8c9d0ea") :=
  ⟨(upload_atomicity exFS exDB exForm
      "65a1b2c3d4e5f6a7b8c9d0e9" "65a1b2c3d4e5f6a7b8c9d0ea"
      (some 0) true "Otis" "Manual A" rfl rfl).1 0 rfl,
   fun hne =>
    ((upload_atomicity exFS exDB exForm
      "65a1b2c3d4e5f6a7b8c9d0e9" "65a1b2c3d4e5f6a7b8c9d0ea"
      none true "Otis" "Manual A" rfl rfl).2.2 hne).2.2.1⟩

/-- C7: for every successful upload, the record's `size` equals the byte
length of the stored blob, which equals the byte length of the uploaded
stream — `size` is read back from the file just written (multi-chunk
accumulation reassembles the stream exactly), never taken from the
client. This covers streams of any length, including 0, 1 and more than
the 1 MiB chunk size. -/
theorem upload_size_integrity (fs : FS) (db : List StoredDoc)
    (form : UploadForm) (oidF oidD : String) (b t : String)
    (hb : form.brand = some b) (ht : form.title = some t) :
    ∃ doc : StoredDoc,
      (uploadDocument fs db form oidF oidD none true).2.2 = db ++ [doc] ∧
      doc.size = form.fileContent.length ∧
      lookupFS (uploadDocument fs db form oidF oidD none true).2.1 doc.path =
        some form.fileContent := by
  obtain ⟨fb, ftl, fd, ftg, ffn, fct, fc⟩ := form
  simp only at hb ht
  subst hb; subst ht
  refine ⟨_, rfl, ?_, ?_⟩
  · simp only [uploadDocument, lookupFS, beq_self_eq_true, if_pos,
      Option.getD_some, chunksOf_flatten]
  · simp only [uploadDocument, lookupFS, beq_self_eq_true, if_pos,
      chunksOf_flatten]

/-- Witness for `upload_size_integrity` at a concrete upload. -/
theorem upload_size_integrity_witness :
    ∃ doc : StoredDoc,
      (uploadDocument exFS exDB exForm
        "65a1b2c3d4e5f6a7b8c9d0e9" "65a1b2c3d4e5f6a7b8c9d0ea"
        none true).2.2 = exDB ++ [doc] ∧
      doc.size = exForm.fileContent.length ∧
      lookupFS (uploadDocument exFS exDB exForm
        "65a1b2c3d4e5f6a7b8c9d0e9" "65a1b2c3d4e5f6a7b8c9d0ea"
        none true).2.1 doc.path = some exForm.fileContent :=
  upload_size_integrity exFS exDB exForm
    "65a1b2c3d4e5f6a7b8c9d0e9" "65a1b2c3d4e5f6a7b8c9d0ea"
    "Otis" "Manual A" rfl rfl

-- ----------------------------------------------------------------------
-- Claim C8 — search response projection
-- ----------------------------------------------------------------------

/-- C8: every item of a search response is the projection of a stored
record — carrying the record's identifier as the public string field
`id` — and the projection erases the storage path: records differing
only in `path` project to the same response item (and the response type
has no storage-location field at all). -/
theorem search_projection_strips_path :
    (∀ (db : List StoredDoc) (q brand : Option String) (limit : Nat)
        (item : PublicDoc), item ∈ listDocuments db q brand limit →
      ∃ d, d ∈ db ∧ item = project d ∧ item.id = d.oid) ∧
    (∀ (d : StoredDoc) (p : String), project { d with path := p } = project d) := by
  refine ⟨?_, fun d p => rfl⟩
  intro db q brand limit item hmem
  simp only [listDocuments, getDocuments, List.mem_map] at hmem
  obtain ⟨d, hd, rfl⟩ := hmem
  have hd' : d ∈ db.filter (fun d => evalFilter (buildFilter q brand) d) :=
    List.take_subset _ _ hd
  exact ⟨d, List.mem_of_mem_filter hd', rfl, rfl⟩

/-- Witness for `search_projection_strips_path` at a concrete search. -/
theorem search_projection_strips_path_witness :
    ∃ d, d ∈ exDB ∧ project exDoc1 = project d ∧
      (project exDoc1).id = d.oid :=
  search_projection_strips_path.1 exDB none none 100 (project exDoc1)
    (by decide)
